import Mathlib

/-!
Shallow embedding of the audio ingest / segmentation / transcription pipeline
of the Mori backend (`src/backend_python`), covering:

* `realtime_stt_client.py` — `RealtimeSttClient.append_audio`, `commit`,
  `clear`, and `_handle_event`;
* `vad_segmenter.py` — `VADSegmenter.process_chunk` and `_wait_for_hangover`;
* `audio_encoder.py` — the chunk accumulator inside `AudioEncoder.process_frame`;
* `vad_processor.py` — `VADProcessor._detect_speech`;
* `webrtc_handler.py` — the server-VAD turn state machine
  (`_on_speech_started`, `_on_speech_stopped`, `_on_stt_partial`,
  `_on_stt_final`, `_handle_final_timeout`).

The asynchronous Python code is serialized: every handler runs under its lock,
so each method is embedded as a pure state-transition function.  The outcome of
the underlying WebSocket `ws.send` call is an explicit parameter
(`SendOutcome`), matching the three paths the source distinguishes (success,
connection-closed exceptions, any other exception).  Wall-clock timestamps and
logging are omitted; they do not influence any state transition or emitted
message.
-/

namespace Mori

namespace RealtimeSttClient

/-- Outcome of the `ws.send` wire call made inside `send_event`
(`realtime_stt_client.py`): it either returns, raises one of the
connection-closed exception types, or raises some other exception. -/
inductive SendOutcome
  | ok
  | closedErr
  | otherErr
deriving DecidableEq

/-- Session-counter state of `RealtimeSttClient`: the `_connected` flag,
whether `self.ws` is set, and the three counters `_appended_chunks`,
`_buffered_ms`, `_pending_appends`. -/
structure SttClient where
  connected : Bool
  hasWs : Bool
  appended_chunks : Nat
  buffered_ms : Nat
  pending_appends : Nat
deriving DecidableEq

/-- `self.chunk_ms = 20` (20 ms per chunk). -/
def chunk_ms : Nat := 20

/-- `self.expected_bytes = int(24000 * 0.020 * 2) = 960`. -/
def expected_bytes : Nat := 960

/-- Client state right after a successful `connect()`: connected, socket set,
all counters zero. -/
def initClient : SttClient :=
  ⟨true, true, 0, 0, 0⟩

/-- Result of one `append_audio` call: the new client state, the boolean the
method returns, whether an exception escaped to the caller, and whether the
`_on_error` callback was awaited. -/
structure AppendResult where
  state : SttClient
  retOk : Bool
  raised : Bool
  onErrorCalled : Bool
deriving DecidableEq

/-- `RealtimeSttClient.append_audio` (`realtime_stt_client.py` lines 160-227).
Early-outs with `False` when disconnected; raises `ValueError` on a size
mismatch, which its own `except Exception` clause catches (calling `_on_error`
and returning `False`, so nothing propagates); otherwise increments
`_pending_appends`, performs the wire send, and on success decrements
`_pending_appends`, increments `_appended_chunks` and derives `_buffered_ms`.
On a connection-closed error during the send, `send_event` sets
`_connected = False` and re-raises; the dedicated `except` clause returns
`False` without decrementing `_pending_appends`.  Any other send error is
caught by the generic clause: `_on_error` is called and `False` is returned,
again without decrementing `_pending_appends`. -/
def append_audio (c : SttClient) (nbytes : Nat) (send : SendOutcome) : AppendResult :=
  if !(c.connected && c.hasWs) then
    ⟨c, false, false, false⟩
  else if nbytes ≠ expected_bytes then
    ⟨c, false, false, true⟩
  else
    let c1 : SttClient := { c with pending_appends := c.pending_appends + 1 }
    match send with
    | .ok =>
      let ac := c1.appended_chunks + 1
      ⟨{ c1 with
          appended_chunks := ac
          pending_appends := c1.pending_appends - 1
          buffered_ms := ac * chunk_ms }, true, false, false⟩
    | .closedErr =>
      ⟨{ c1 with connected := false }, false, false, false⟩
    | .otherErr =>
      ⟨c1, false, false, true⟩

/-- `RealtimeSttClient.flush` polls until `_pending_appends` drains or 1 s
elapses; it mutates no counter, so in the serialized embedding it is the
identity on the client state. -/
def flush (c : SttClient) : SttClient := c

/-- Result of one `commit` call: the new state, whether `ws.send` was invoked
with the `input_audio_buffer.commit` payload, and whether that send completed
without an exception (only then are the counters reset). -/
structure CommitResult where
  state : SttClient
  sent : Bool
  ok : Bool
deriving DecidableEq

/-- `RealtimeSttClient.commit` (`realtime_stt_client.py` lines 243-281).
Returns without sending when disconnected, when `_buffered_ms < 100`, or when
`_pending_appends * 20 >= 100`; otherwise waits on `flush` (state-invariant
here) and sends the commit message.  On success it resets `_appended_chunks`
and `_buffered_ms` (note: not `_pending_appends`); on an exception during the
send the counters are left as they were (`_connected` drops on a
connection-closed error, which `send_event` records before re-raising). -/
def commit (c : SttClient) (send : SendOutcome) : CommitResult :=
  if !(c.connected && c.hasWs) then
    ⟨c, false, false⟩
  else if c.buffered_ms < 100 then
    ⟨c, false, false⟩
  else if 100 ≤ c.pending_appends * chunk_ms then
    ⟨c, false, false⟩
  else
    let c1 := flush c
    match send with
    | .ok =>
      ⟨{ c1 with appended_chunks := 0, buffered_ms := 0 }, true, true⟩
    | .closedErr =>
      ⟨{ c1 with connected := false }, true, false⟩
    | .otherErr =>
      ⟨c1, true, false⟩

/-- `RealtimeSttClient.clear` (`realtime_stt_client.py` lines 283-306).
Returns immediately when disconnected; otherwise sends the clear message and,
on success, zeroes all three counters.  A failed send leaves the counters
untouched (dropping `_connected` on a connection-closed error). -/
def clear (c : SttClient) (send : SendOutcome) : SttClient :=
  if !(c.connected && c.hasWs) then
    c
  else
    match send with
    | .ok =>
      { c with appended_chunks := 0, buffered_ms := 0, pending_appends := 0 }
    | .closedErr =>
      { c with connected := false }
    | .otherErr =>
      c

/-- Iterate `k` successful 960-byte appends on a client. -/
def appendOkN (c : SttClient) : Nat → SttClient
  | 0 => c
  | k + 1 => appendOkN (append_audio c expected_bytes SendOutcome.ok).state k

/-- A reachable client state with a stuck in-flight append: one append whose
send failed with a generic (non-close) exception — leaving
`_pending_appends = 1` with the client still connected — followed by five
successful appends, so `_buffered_ms = 100`. -/
def stuckPendingClient : SttClient :=
  appendOkN (append_audio initClient expected_bytes SendOutcome.otherErr).state 5

/-- An inbound provider event as decoded by `_receiver_loop`: its `type` and
the payload fields the handler reads. -/
structure InEvent where
  type : String
  delta : String
  transcript : String
  errMessage : String
deriving DecidableEq

/-- A callback invocation performed by `_handle_event`.  The client only owns
`_on_partial`, `_on_final` and `_on_error`; it has no speech-boundary
callbacks at all. -/
inductive CallbackCall
  | partialText (s : String)
  | finalText (s : String)
  | errorCb (s : String)
deriving DecidableEq

/-- `RealtimeSttClient._handle_event` (`realtime_stt_client.py` lines 368-459),
returning the list of callback invocations it performs.  Delta events call
`_on_partial` when the delta is non-empty and the callback is set; completed
events call `_on_final` likewise; `error` events call `_on_error`;
`input_audio_buffer.committed`, session created/updated events are
acknowledged with no callback; every other type — including
`input_audio_buffer.speech_started` and `input_audio_buffer.speech_stopped` —
falls into the final branch, which only logs the event and drops it. -/
def handle_event (hasPartialCb hasFinalCb hasErrorCb : Bool) (e : InEvent) :
    List CallbackCall :=
  if e.type = "transcription.delta" then
    if e.delta ≠ "" && hasPartialCb then [.partialText e.delta] else []
  else if e.type = "transcription.completed" then
    if e.transcript ≠ "" && hasFinalCb then [.finalText e.transcript] else []
  else if e.type = "conversation.item.input_audio_transcription.delta" then
    if e.delta ≠ "" && hasPartialCb then [.partialText e.delta] else []
  else if e.type = "conversation.item.input_audio_transcription.completed" then
    if e.transcript ≠ "" && hasFinalCb then [.finalText e.transcript] else []
  else if e.type = "input_audio_buffer.committed" then []
  else if e.type = "transcription_session.created" || e.type = "session.created" then []
  else if e.type = "transcription_session.updated" then []
  else if e.type = "session.updated" then []
  else if e.type = "error" then
    if hasErrorCb then [.errorCb e.errMessage] else []
  else []

end RealtimeSttClient

namespace VADSegmenter

/-- The three states of the segmenter state machine (`vad_segmenter.py`). -/
inductive VADState
  | IDLE
  | SPEECH
  | HANGOVER
deriving DecidableEq, BEq

/-- A call the segmenter makes into the transcription-client callbacks:
`on_clear`, `on_append` (with the chunk it passes), or `on_commit`.  Chunks
are identified abstractly by a natural number. -/
inductive ProviderCall
  | clear
  | append (chunk : Nat)
  | commit
deriving DecidableEq

/-- `VADSegmenter` state: configuration (`hangover_ms` clamped to [300, 800],
`min_commit_ms`), the state-machine state, the per-segment `appended_chunks`
counter, `_segment_id`, and whether `_hangover_task` is live.  The wall-clock
fields (`last_speech_time`, `_segment_start_time`) only feed logging and are
omitted. -/
structure Segmenter where
  hangover_ms : Nat
  min_commit_ms : Nat
  state : VADState
  appended_chunks : Nat
  segment_id : Nat
  hangover_armed : Bool
deriving DecidableEq

/-- `self.chunk_ms = 20`. -/
def chunk_ms : Nat := 20

/-- `VADSegmenter.__init__` with the default arguments
(`hangover_ms = 500`, `min_commit_ms = 100`); the constructor clamps
`hangover_ms` to `max(300, min(800, hangover_ms))` and starts in `IDLE`. -/
def mkSegmenter : Segmenter :=
  ⟨max 300 (min 800 500), 100, VADState.IDLE, 0, 0, false⟩

/-- `VADSegmenter.process_chunk` (`vad_segmenter.py` lines 73-184), returning
the updated state and the ordered list of provider-callback calls it makes.

* `IDLE` + silence: nothing (the source comment reads "IDLE 상태에서 무음은
  무시 (append 안 함)" — silence in IDLE is ignored, no append and no
  buffering of the chunk anywhere).
* `IDLE` + speech: enter `SPEECH`, reset `appended_chunks`, bump
  `_segment_id`, call `on_clear`, then `on_append` for the current chunk
  (after which `appended_chunks = 1`).
* `SPEECH` + speech: `on_append`.
* `SPEECH` + silence: enter `HANGOVER`, start the hangover task, `on_append`.
* `HANGOVER` (either way): `on_append`; on speech, cancel the hangover task
  and return to `SPEECH` without a new segment id and without `on_clear`. -/
def process_chunk (s : Segmenter) (chunk : Nat) (is_speech : Bool) :
    Segmenter × List ProviderCall :=
  match s.state with
  | .IDLE =>
    if is_speech then
      ({ s with
          state := .SPEECH
          appended_chunks := 1
          segment_id := s.segment_id + 1 },
        [.clear, .append chunk])
    else
      (s, [])
  | .SPEECH =>
    if is_speech then
      ({ s with appended_chunks := s.appended_chunks + 1 }, [.append chunk])
    else
      ({ s with
          state := .HANGOVER
          appended_chunks := s.appended_chunks + 1
          hangover_armed := true },
        [.append chunk])
  | .HANGOVER =>
    if is_speech then
      ({ s with
          state := .SPEECH
          appended_chunks := s.appended_chunks + 1
          hangover_armed := false },
        [.append chunk])
    else
      ({ s with appended_chunks := s.appended_chunks + 1 }, [.append chunk])

/-- `VADSegmenter._wait_for_hangover` (`vad_segmenter.py` lines 186-227) after
its sleep, holding the lock: if the state is no longer `HANGOVER` it returns;
otherwise it reads the STT client's `buffered_ms` via `on_get_buffered_ms`
(falling back to `appended_chunks * chunk_ms`), calls `on_commit` when that
value reaches `min_commit_ms` (and never calls `on_clear`), then transitions
to `IDLE` and resets the per-segment counter. -/
def wait_for_hangover (s : Segmenter) (stt_buffered_ms : Option Nat) :
    Segmenter × List ProviderCall :=
  if s.state ≠ .HANGOVER then
    (s, [])
  else
    let buf := stt_buffered_ms.getD (s.appended_chunks * chunk_ms)
    let calls := if s.min_commit_ms ≤ buf then [ProviderCall.commit] else []
    ({ s with state := .IDLE, appended_chunks := 0, hangover_armed := false }, calls)

/-- Feed a list of `(chunk, is_speech)` inputs through `process_chunk`,
collecting every provider call in order. -/
def run (s : Segmenter) : List (Nat × Bool) → Segmenter × List ProviderCall
  | [] => (s, [])
  | (c, b) :: rest =>
    let r := process_chunk s c b
    let r2 := run r.1 rest
    (r2.1, r.2 ++ r2.2)

/-- Whether a provider-call trace contains a `clear`. -/
def hasClear : List ProviderCall → Bool
  | [] => false
  | .clear :: _ => true
  | _ :: rest => hasClear rest

/-- A segmenter sitting in `HANGOVER` mid-segment (10 chunks appended,
segment 1, hangover task armed), used to evaluate the hangover-expiry path. -/
def hangoverState : Segmenter :=
  ⟨500, 100, VADState.HANGOVER, 10, 1, true⟩

end VADSegmenter

namespace AudioEncoder

/-- `AudioEncoder.CHUNK_SAMPLES = 480` (20 ms at 24 kHz; 960 bytes). -/
def CHUNK_SAMPLES : Nat := 480

/-- `AudioEncoder` state: `self.buffer`, the pending int16 sample queue.
Samples are embedded as integers; their values pass through untouched. -/
structure Encoder where
  buffer : List Int
deriving DecidableEq

/-- A fresh `AudioEncoder()`: empty buffer. -/
def initEncoder : Encoder := ⟨[]⟩

/-- The chunk-extraction loop of `AudioEncoder.process_frame`
(`audio_encoder.py` lines 116-124): while at least `CHUNK_SAMPLES` samples are
buffered, detach the leading `CHUNK_SAMPLES` as one chunk.  Returns the
emitted chunks in order and the remaining buffer. -/
def drainChunks (buf : List Int) : List (List Int) × List Int :=
  if CHUNK_SAMPLES ≤ buf.length then
    let rest := drainChunks (buf.drop CHUNK_SAMPLES)
    (buf.take CHUNK_SAMPLES :: rest.1, rest.2)
  else
    ([], buf)
termination_by buf.length
decreasing_by
  simp only [List.length_drop, CHUNK_SAMPLES] at *
  omega

/-- `AudioEncoder.process_frame` (`audio_encoder.py` lines 45-144), restricted
to the accumulator (steps 7-8 of the source): the frame's normalized 24 kHz
int16 samples are appended to the buffer and complete 480-sample chunks are
drained off the front.  The upstream normalization/resampling (steps 1-6)
produces the `samples` argument and never pads or drops within a frame. -/
def process_frame (e : Encoder) (samples : List Int) : Encoder × List (List Int) :=
  let buf := e.buffer ++ samples
  let r := drainChunks buf
  (⟨r.2⟩, r.1)

/-- Feed a sequence of normalized frames through `process_frame`, collecting
all emitted chunks in production order. -/
def runEncoder (e : Encoder) : List (List Int) → Encoder × List (List Int)
  | [] => (e, [])
  | f :: fs =>
    let r := process_frame e f
    let r2 := runEncoder r.1 fs
    (r2.1, r.2 ++ r2.2)

end AudioEncoder

namespace VADProcessor

/-- `VADProcessor._detect_speech` (`vad_processor.py` lines 90-112).  The
argument is the outcome of the underlying `webrtcvad` call:
`some b` when `self.vad.is_speech` returns `b`, `none` when it raises.  The
source's `except` clause logs at error level and — per its own comment
"에러 시 보수적으로 speech로 판단" (on error, conservatively judge as
speech) — returns `True`. -/
def detect_speech (vadIsSpeech : Option Bool) : Bool :=
  match vadIsSpeech with
  | some b => b
  | none => true

end VADProcessor

namespace WebRTCHandler

/-- Python `str.strip()` as used throughout `webrtc_handler.py`: remove
leading and trailing whitespace. -/
def pyStrip (s : String) : String :=
  String.mk (((s.data.dropWhile Char.isWhitespace).reverse.dropWhile
    Char.isWhitespace).reverse)

/-- Turn-coordinator state of `WebRTCHandler` (server-VAD mode): `turn_id`,
`in_speech`, `turn_text_buffer`, `awaiting_final`, and whether
`final_timeout_task` is live (set and neither done nor cancelled). -/
structure TurnState where
  turn_id : Nat
  in_speech : Bool
  turn_text_buffer : String
  awaiting_final : Bool
  timeout_armed : Bool
deriving DecidableEq

/-- `WebRTCHandler.__init__` turn fields: `turn_id = 0`, not in speech, empty
buffer, not awaiting a final, no timeout task. -/
def initTurnState : TurnState :=
  ⟨0, false, "", false, false⟩

/-- A JSON message sent over the data channel by the turn coordinator. -/
inductive DcMessage
  | vadSpeechStartedMsg (turn_id : Nat)
  | vadSpeechStoppedMsg (turn_id : Nat)
  | sttPartialMsg (turn_id : Nat) (delta text : String)
  | sttFinalMsg (turn_id : Nat) (text : String)
deriving DecidableEq

/-- `WebRTCHandler._on_speech_started` (`webrtc_handler.py` lines 505-524):
under the turn lock, increment `turn_id`, enter speech, reset the text
buffer, drop `awaiting_final`, cancel any live final-timeout task, and emit
`vad.speech_started`. -/
def on_speech_started (s : TurnState) : TurnState × List DcMessage :=
  let tid := s.turn_id + 1
  (⟨tid, true, "", false, false⟩, [.vadSpeechStartedMsg tid])

/-- `WebRTCHandler._on_speech_stopped` (`webrtc_handler.py` lines 526-541):
leave speech, set `awaiting_final`, emit `vad.speech_stopped`, and start the
2.0 s final-timeout task. -/
def on_speech_stopped (s : TurnState) : TurnState × List DcMessage :=
  ({ s with in_speech := false, awaiting_final := true, timeout_armed := true },
    [.vadSpeechStoppedMsg s.turn_id])

/-- `WebRTCHandler._on_stt_partial` (`webrtc_handler.py` lines 677-697),
embedded as `on_stt_delta`: return early when the stripped delta is empty;
while in speech or awaiting a final, append the stripped delta to the buffer
and emit `stt.partial` with the delta and the running total. -/
def on_stt_delta (s : TurnState) (text : String) : TurnState × List DcMessage :=
  if pyStrip text = "" then
    (s, [])
  else
    let text_clean := pyStrip text
    if s.in_speech || s.awaiting_final then
      let buf := s.turn_text_buffer ++ text_clean
      ({ s with turn_text_buffer := buf }, [.sttPartialMsg s.turn_id text_clean buf])
    else
      (s, [])

/-- `WebRTCHandler._on_stt_final` (`webrtc_handler.py` lines 699-734): ignored
unless `awaiting_final`; cancels the timeout task, prefers the stripped
provider transcript and falls back to the stripped buffer, substitutes
`"[inaudible]"` when empty, emits `stt.final`, and clears `awaiting_final`.
(The follow-up LLM call is out of scope here.) -/
def on_stt_final (s : TurnState) (text : String) : TurnState × List DcMessage :=
  let text_clean := pyStrip text
  if !s.awaiting_final then
    (s, [])
  else
    let ft := if text_clean = "" then pyStrip s.turn_text_buffer else text_clean
    let final_text := if ft = "" then "[inaudible]" else ft
    ({ s with awaiting_final := false, timeout_armed := false },
      [.sttFinalMsg s.turn_id final_text])

/-- `WebRTCHandler._handle_final_timeout` (`webrtc_handler.py` lines 543-578)
after its 2.0 s sleep, holding the turn lock: skip when no longer
`awaiting_final`; otherwise take the stripped buffer (or `"[inaudible]"` when
empty), emit `stt.final` with the current `turn_id`, and clear
`awaiting_final`.  (The follow-up LLM call is out of scope here.) -/
def handle_final_timeout (s : TurnState) : TurnState × List DcMessage :=
  if !s.awaiting_final then
    ({ s with timeout_armed := false }, [])
  else
    let ft := pyStrip s.turn_text_buffer
    let final_text := if ft = "" then "[inaudible]" else ft
    ({ s with awaiting_final := false, timeout_armed := false },
      [.sttFinalMsg s.turn_id final_text])

/-- An event dispatched to the turn coordinator: the provider boundary
events, a transcript delta, an in-band final, or the final-timeout expiry. -/
inductive TurnEvent
  | speechStarted
  | speechStopped
  | sttDelta (text : String)
  | sttFinalEvt (text : String)
  | finalTimeout
deriving DecidableEq

/-- One serialized coordinator step.  The timeout body only runs when the
timeout task is live (a cancelled task never fires). -/
def step (s : TurnState) : TurnEvent → TurnState × List DcMessage
  | .speechStarted => on_speech_started s
  | .speechStopped => on_speech_stopped s
  | .sttDelta t => on_stt_delta s t
  | .sttFinalEvt t => on_stt_final s t
  | .finalTimeout => if s.timeout_armed then handle_final_timeout s else (s, [])

/-- Run a list of events through `step`, collecting emitted messages. -/
def runTurn (s : TurnState) : List TurnEvent → TurnState × List DcMessage
  | [] => (s, [])
  | e :: rest =>
    let r := step s e
    let r2 := runTurn r.1 rest
    (r2.1, r.2 ++ r2.2)

/-- The spec's final-timeout scenario after the opening `speech_started`: two
deltas, then `speech_stopped`, then no in-band final. -/
def timeoutScenario : List TurnEvent :=
  [.sttDelta "hello", .sttDelta " world", .speechStopped]

end WebRTCHandler

/-! ### Theorems -/

namespace VADSegmenter

/-- Claim C1 counterexample: from the initial `IDLE` state, the first speech
chunk makes `process_chunk` call the provider `clear` callback at the
IDLE→SPEECH transition (before the segment's first append), and the
hangover-expiry path calls only `commit` — no `clear` follows the commit.
Both halves contradict the claim that clear is never called at IDLE→SPEECH
and only happens after commit. -/
theorem clear_at_idle_to_speech_cex :
    (process_chunk mkSegmenter 0 true).2 = [ProviderCall.clear, ProviderCall.append 0]
    ∧ (wait_for_hangover hangoverState (some 200)).2 = [ProviderCall.commit] := by
  decide

/-- Claim C1 amended: `process_chunk` emits a provider `clear` exactly at the
IDLE→SPEECH transition (once per segment, before the segment's appends), and
the hangover-expiry path `_wait_for_hangover` never emits `clear`. -/
theorem clear_only_at_segment_start (s : Segmenter) (c : Nat) (b : Bool) (o : Option Nat) :
    hasClear (process_chunk s c b).2 = (s.state == VADState.IDLE && b)
    ∧ hasClear (wait_for_hangover s o).2 = false := by
  obtain ⟨hm, mc, st, ac, sid, ha⟩ := s
  constructor
  · cases st <;> cases b <;> simp [process_chunk, hasClear] <;> decide
  · cases st <;> simp [wait_for_hangover, hasClear, apply_ite hasClear]

/-- Claim C2 counterexample: a silence chunk processed in `IDLE` (chunk 7) is
discarded — there is no pre-roll ring — so at the next IDLE→SPEECH transition
the provider receives only `clear` followed by the current chunk (chunk 9);
chunk 7 is never appended. -/
theorem preroll_ring_cex :
    (run mkSegmenter [(7, false), (9, true)]).2
      = [ProviderCall.clear, ProviderCall.append 9] := by
  decide

/-- Claim C2 amended: in `IDLE` with `is_speech = false`, `process_chunk`
discards the chunk entirely (state unchanged, no provider call — the source
keeps no pre-roll ring), and at the IDLE→SPEECH transition only the current
chunk is appended, after the `clear`. -/
theorem idle_silence_discarded (s : Segmenter) (c : Nat)
    (h : s.state = VADState.IDLE) :
    process_chunk s c false = (s, [])
    ∧ (process_chunk s c true).2 = [ProviderCall.clear, ProviderCall.append c] := by
  obtain ⟨hm, mc, st, ac, sid, ha⟩ := s
  simp only at h
  subst h
  exact ⟨rfl, rfl⟩

/-- Witness for `idle_silence_discarded` at the freshly constructed
segmenter and chunk 0. -/
theorem idle_silence_discarded_witness :
    process_chunk mkSegmenter 0 false = (mkSegmenter, [])
    ∧ (process_chunk mkSegmenter 0 true).2
      = [ProviderCall.clear, ProviderCall.append 0] :=
  idle_silence_discarded mkSegmenter 0 rfl

end VADSegmenter

namespace VADProcessor

/-- Claim C7 counterexample: when the detector raises (`none`), the gate
returns `true` (speech), not the claimed silence (`false`). -/
theorem vad_exception_cex : detect_speech none = true := by
  decide

/-- Claim C7 amended: `_detect_speech` returns the detector's verdict when it
returns one, and `true` (speech, not silence) when the detector raises. -/
theorem detect_speech_spec (r : Option Bool) : detect_speech r = r.getD true := by
  cases r <;> rfl

end VADProcessor

namespace RealtimeSttClient

/-- Claim C3: whenever `commit` reaches the wire send of
`input_audio_buffer.commit`, the entry state (unchanged up to the send in the
serialized embedding, since `flush` mutates nothing) satisfies
`buffered_ms ≥ 100` and `pending_appends * 20 < 100`; if either condition
fails, `commit` returns with no send and the state untouched. -/
theorem commit_guard (c : SttClient) (o : SendOutcome) :
    ((commit c o).sent = true → 100 ≤ c.buffered_ms ∧ c.pending_appends * 20 < 100)
    ∧ ((c.buffered_ms < 100 ∨ 100 ≤ c.pending_appends * 20) →
        commit c o = ⟨c, false, false⟩) := by
  constructor
  · intro hs
    unfold commit at hs
    split at hs
    · simp at hs
    · split at hs
      · simp at hs
      · split at hs
        · simp at hs
        · rename_i h1 h2 h3
          simp only [chunk_ms] at h3
          exact ⟨by omega, by omega⟩
  · intro hcond
    unfold commit
    split
    · rfl
    · split
      · rfl
      · split
        · rfl
        · rename_i h1 h2 h3
          simp only [chunk_ms] at h3
          rcases hcond with h | h
          · omega
          · omega

/-- Witness for `commit_guard`: with only 80 ms buffered the commit is
refused and the state is unchanged. -/
theorem commit_guard_witness :
    commit ⟨true, true, 4, 80, 0⟩ SendOutcome.ok = ⟨⟨true, true, 4, 80, 0⟩, false, false⟩ :=
  (commit_guard ⟨true, true, 4, 80, 0⟩ SendOutcome.ok).2 (Or.inl (by decide))

/-- Claim C4 counterexample: a 959-byte append on a connected client is
refused with return value `False` and the counters untouched, but the
`ValueError` is caught by `append_audio`'s own generic `except` clause — it
is routed to the `_on_error` callback and nothing is raised to the caller,
contradicting the claim's "the error is raised to the caller". -/
theorem append_959_cex :
    (append_audio initClient 959 SendOutcome.ok).retOk = false
    ∧ (append_audio initClient 959 SendOutcome.ok).raised = false
    ∧ (append_audio initClient 959 SendOutcome.ok).onErrorCalled = true
    ∧ (append_audio initClient 959 SendOutcome.ok).state = initClient := by
  decide

/-- Claim C4 amended: on a connected client, an append whose payload is not
exactly 960 bytes is refused before any counter changes: `append_audio`
returns `False`, invokes the `_on_error` callback with the size-mismatch
error, raises nothing to the caller, and leaves the state unchanged. -/
theorem append_bad_size_refused (c : SttClient) (n : Nat) (o : SendOutcome)
    (hc : c.connected = true) (hw : c.hasWs = true) (hn : n ≠ expected_bytes) :
    append_audio c n o = ⟨c, false, false, true⟩ := by
  unfold append_audio
  rw [hc, hw]
  simp [hn]

/-- Witness for `append_bad_size_refused` at a fresh client and the spec's
959-byte payload. -/
theorem append_bad_size_refused_witness :
    append_audio initClient 959 SendOutcome.ok = ⟨initClient, false, false, true⟩ :=
  append_bad_size_refused initClient 959 SendOutcome.ok rfl rfl (by decide)

/-- Claim C5 counterexample: `stuckPendingClient` is reached from a fresh
client by one append whose send raised a generic exception (leaving
`_pending_appends = 1`) and five successful appends; `commit` then passes its
guards (`pending * 20 = 20 < 100`), sends, and returns — but
`_pending_appends` is still 1, because `commit` resets only
`_appended_chunks` and `_buffered_ms`.  This contradicts the claim that all
three counters are zero after a commit that sends. -/
theorem commit_pending_not_reset_cex :
    stuckPendingClient = ⟨true, true, 5, 100, 1⟩
    ∧ (commit stuckPendingClient SendOutcome.ok).sent = true
    ∧ (commit stuckPendingClient SendOutcome.ok).ok = true
    ∧ (commit stuckPendingClient SendOutcome.ok).state.pending_appends = 1 := by
  decide

/-- Claim C5 amended: after a commit whose send completes, `appended_chunks`
and `buffered_ms` are zero, while `pending_appends` is left exactly as it was
at entry (it is reset only by `clear`). -/
theorem commit_resets_appended_and_buffered (c : SttClient) (o : SendOutcome)
    (h : (commit c o).ok = true) :
    (commit c o).state.appended_chunks = 0
    ∧ (commit c o).state.buffered_ms = 0
    ∧ (commit c o).state.pending_appends = c.pending_appends := by
  unfold commit flush at h ⊢
  by_cases h1 : (!(c.connected && c.hasWs)) = true
  · rw [if_pos h1] at h
    simp at h
  · rw [if_neg h1] at h ⊢
    by_cases h2 : c.buffered_ms < 100
    · rw [if_pos h2] at h
      simp at h
    · rw [if_neg h2] at h ⊢
      by_cases h3 : 100 ≤ c.pending_appends * chunk_ms
      · rw [if_pos h3] at h
        simp at h
      · rw [if_neg h3] at h ⊢
        cases o
        · exact ⟨rfl, rfl, rfl⟩
        · simp at h
        · simp at h

/-- Witness for `commit_resets_appended_and_buffered` on a client with
100 ms buffered and no in-flight appends. -/
theorem commit_resets_witness :
    (commit ⟨true, true, 5, 100, 0⟩ SendOutcome.ok).state.appended_chunks = 0
    ∧ (commit ⟨true, true, 5, 100, 0⟩ SendOutcome.ok).state.buffered_ms = 0
    ∧ (commit ⟨true, true, 5, 100, 0⟩ SendOutcome.ok).state.pending_appends
      = (⟨true, true, 5, 100, 0⟩ : SttClient).pending_appends :=
  commit_resets_appended_and_buffered ⟨true, true, 5, 100, 0⟩ SendOutcome.ok (by decide)

/-- Claim C6: evaluating `_handle_event` at the failing inputs — inbound
events of type `input_audio_buffer.speech_started` and
`input_audio_buffer.speech_stopped` — shows they invoke no callback at all:
they fall through to the unhandled-event branch and are dropped, even with
every callback the client owns installed. -/
theorem speech_boundary_events_dropped :
    handle_event true true true ⟨"input_audio_buffer.speech_started", "", "", ""⟩ = []
    ∧ handle_event true true true ⟨"input_audio_buffer.speech_stopped", "", "", ""⟩ = [] := by
  decide

/-- Claim C10: a connection-closed error during the send inside
`append_audio` (connected client, 960-byte input) makes the call return
`False` (raising nothing), mark the client disconnected, leave
`appended_chunks` and `buffered_ms` unchanged, and leave `pending_appends`
one greater than before the call; moreover `commit` never changes
`pending_appends` (so the stuck count survives commits), and `clear` either
resets `pending_appends` to zero or — when its own send does not complete —
leaves it unchanged, making `clear` the only operation that resets it. -/
theorem append_closed_error_spec (c c2 : SttClient) (o : SendOutcome)
    (hc : c.connected = true) (hw : c.hasWs = true) :
    (append_audio c expected_bytes SendOutcome.closedErr).retOk = false
    ∧ (append_audio c expected_bytes SendOutcome.closedErr).raised = false
    ∧ (append_audio c expected_bytes SendOutcome.closedErr).state.connected = false
    ∧ (append_audio c expected_bytes SendOutcome.closedErr).state.appended_chunks
      = c.appended_chunks
    ∧ (append_audio c expected_bytes SendOutcome.closedErr).state.buffered_ms
      = c.buffered_ms
    ∧ (append_audio c expected_bytes SendOutcome.closedErr).state.pending_appends
      = c.pending_appends + 1
    ∧ (commit c2 o).state.pending_appends = c2.pending_appends
    ∧ ((clear c2 o).pending_appends = 0 ∨ (clear c2 o).pending_appends = c2.pending_appends) := by
  refine ⟨?_, ?_, ?_, ?_, ?_, ?_, ?_, ?_⟩
  all_goals first
    | (unfold append_audio
       rw [hc, hw]
       simp)
    | skip
  · unfold commit flush
    split
    · rfl
    · split
      · rfl
      · split
        · rfl
        · cases o <;> rfl
  · unfold clear
    split
    · exact Or.inr rfl
    · cases o
      · exact Or.inl rfl
      · exact Or.inr rfl
      · exact Or.inr rfl

/-- Witness for `append_closed_error_spec` on a connected client with three
chunks buffered, and a second client with seven stuck in-flight appends. -/
theorem append_closed_error_witness :
    (append_audio ⟨true, true, 3, 60, 0⟩ expected_bytes SendOutcome.closedErr).retOk = false
    ∧ (append_audio ⟨true, true, 3, 60, 0⟩ expected_bytes SendOutcome.closedErr).raised = false
    ∧ (append_audio ⟨true, true, 3, 60, 0⟩ expected_bytes SendOutcome.closedErr).state.connected
      = false
    ∧ (append_audio ⟨true, true, 3, 60, 0⟩ expected_bytes SendOutcome.closedErr).state.appended_chunks
      = (⟨true, true, 3, 60, 0⟩ : SttClient).appended_chunks
    ∧ (append_audio ⟨true, true, 3, 60, 0⟩ expected_bytes SendOutcome.closedErr).state.buffered_ms
      = (⟨true, true, 3, 60, 0⟩ : SttClient).buffered_ms
    ∧ (append_audio ⟨true, true, 3, 60, 0⟩ expected_bytes SendOutcome.closedErr).state.pending_appends
      = (⟨true, true, 3, 60, 0⟩ : SttClient).pending_appends + 1
    ∧ (commit ⟨true, true, 0, 0, 7⟩ SendOutcome.ok).state.pending_appends
      = (⟨true, true, 0, 0, 7⟩ : SttClient).pending_appends
    ∧ ((clear ⟨true, true, 0, 0, 7⟩ SendOutcome.ok).pending_appends = 0
        ∨ (clear ⟨true, true, 0, 0, 7⟩ SendOutcome.ok).pending_appends
          = (⟨true, true, 0, 0, 7⟩ : SttClient).pending_appends) :=
  append_closed_error_spec ⟨true, true, 3, 60, 0⟩ ⟨true, true, 0, 0, 7⟩ SendOutcome.ok rfl rfl

end RealtimeSttClient

namespace AudioEncoder

/-- The chunk-extraction loop preserves the buffer: the emitted chunks
concatenated with the leftover equal the input; every emitted chunk has
exactly `CHUNK_SAMPLES` samples; the leftover is shorter than a chunk. -/
theorem drain_spec (buf : List Int) :
    (drainChunks buf).1.flatten ++ (drainChunks buf).2 = buf
    ∧ (∀ ch ∈ (drainChunks buf).1, ch.length = CHUNK_SAMPLES)
    ∧ (drainChunks buf).2.length < CHUNK_SAMPLES := by
  unfold drainChunks
  split
  · rename_i h
    have ih := drain_spec (buf.drop CHUNK_SAMPLES)
    refine ⟨?_, ?_, ih.2.2⟩
    · simp only [List.flatten_cons]
      rw [List.append_assoc, ih.1, List.take_append_drop]
    · intro ch hch
      simp only [List.mem_cons] at hch
      rcases hch with rfl | hch
      · rw [List.length_take]
        omega
      · exact ih.2.1 ch hch
  · rename_i h
    refine ⟨rfl, by simp, ?_⟩
    show buf.length < CHUNK_SAMPLES
    omega
termination_by buf.length
decreasing_by
  simp only [List.length_drop, CHUNK_SAMPLES] at *
  omega

/-- Folding frames through `process_frame` conserves the sample stream (the
emitted chunks followed by the final buffer equal the initial buffer followed
by all input samples) and every emitted chunk has exactly `CHUNK_SAMPLES`
samples. -/
theorem run_encoder_spec (e : Encoder) (frames : List (List Int)) :
    (runEncoder e frames).2.flatten ++ (runEncoder e frames).1.buffer
      = e.buffer ++ frames.flatten
    ∧ (∀ ch ∈ (runEncoder e frames).2, ch.length = CHUNK_SAMPLES) := by
  induction frames generalizing e with
  | nil => simp [runEncoder]
  | cons f fs ih =>
    have hd := drain_spec (e.buffer ++ f)
    have ihr := ih ⟨(drainChunks (e.buffer ++ f)).2⟩
    simp only [runEncoder, process_frame]
    constructor
    · rw [List.flatten_append, List.append_assoc, ihr.1]
      show (drainChunks (e.buffer ++ f)).1.flatten
          ++ ((drainChunks (e.buffer ++ f)).2 ++ fs.flatten) = e.buffer ++ (f :: fs).flatten
      rw [← List.append_assoc, hd.1, List.flatten_cons, List.append_assoc]
    · intro ch hch
      rcases List.mem_append.mp hch with hm | hm
      · exact hd.2.1 ch hm
      · exact ihr.2 ch hm

/-- The pending buffer stays strictly shorter than one chunk across any
frame sequence, provided it starts that way. -/
theorem run_buffer_lt (e : Encoder) (frames : List (List Int))
    (h : e.buffer.length < CHUNK_SAMPLES) :
    (runEncoder e frames).1.buffer.length < CHUNK_SAMPLES := by
  induction frames generalizing e with
  | nil => exact h
  | cons f fs ih =>
    simp only [runEncoder, process_frame]
    exact ih ⟨(drainChunks (e.buffer ++ f)).2⟩ (drain_spec (e.buffer ++ f)).2.2

/-- A list of lists each of length `CHUNK_SAMPLES` joins to a list of length
`CHUNK_SAMPLES *` its count. -/
theorem join_length_of_all (l : List (List Int))
    (h : ∀ ch ∈ l, ch.length = CHUNK_SAMPLES) :
    l.flatten.length = CHUNK_SAMPLES * l.length := by
  induction l with
  | nil => simp
  | cons a t ih =>
    simp only [List.flatten_cons, List.length_append, List.length_cons]
    rw [h a (List.mem_cons_self a t), ih fun ch hch => h ch (List.mem_cons_of_mem a hch)]
    ring

/-- Claim C8: feeding any sequence of normalized frames into the accumulator
from its initial (empty) state, the concatenation of all emitted chunks is
exactly the first `CHUNK_SAMPLES * (total / CHUNK_SAMPLES)` samples of the
concatenated input in production order; every emitted chunk is exactly
`CHUNK_SAMPLES` (= 480) samples, never shorter and never padded; and the
remainder of the input is retained in the buffer. -/
theorem accumulator_stream_spec (frames : List (List Int)) :
    (runEncoder initEncoder frames).2.flatten
      = frames.flatten.take (CHUNK_SAMPLES * (frames.flatten.length / CHUNK_SAMPLES))
    ∧ ((runEncoder initEncoder frames).2.all fun ch => ch.length == CHUNK_SAMPLES) = true
    ∧ (runEncoder initEncoder frames).1.buffer
      = frames.flatten.drop (CHUNK_SAMPLES * (frames.flatten.length / CHUNK_SAMPLES)) := by
  have hs := run_encoder_spec initEncoder frames
  have hb := run_buffer_lt initEncoder frames (by simp [initEncoder, CHUNK_SAMPLES])
  have hcons : (runEncoder initEncoder frames).2.flatten
      ++ (runEncoder initEncoder frames).1.buffer = frames.flatten := by
    have h1 := hs.1
    simpa [initEncoder] using h1
  have hlen : (runEncoder initEncoder frames).2.flatten.length
      = CHUNK_SAMPLES * (runEncoder initEncoder frames).2.length :=
    join_length_of_all _ hs.2
  have htot : frames.flatten.length
      = (runEncoder initEncoder frames).2.flatten.length
        + (runEncoder initEncoder frames).1.buffer.length := by
    rw [← hcons, List.length_append]
  have hC : 0 < CHUNK_SAMPLES := by decide
  have hdiv : CHUNK_SAMPLES * (frames.flatten.length / CHUNK_SAMPLES)
      = (runEncoder initEncoder frames).2.flatten.length := by
    rw [htot, hlen, Nat.mul_add_div hC, Nat.div_eq_of_lt hb, Nat.add_zero]
  refine ⟨?_, ?_, ?_⟩
  · rw [hdiv, ← hcons]
    exact (List.take_left _ _).symm
  · rw [List.all_eq_true]
    intro ch hch
    simpa using hs.2 ch hch
  · rw [hdiv, ← hcons]
    exact (List.drop_left _ _).symm

end AudioEncoder

namespace WebRTCHandler

/-- No coordinator event other than `speechStarted` changes `turn_id`. -/
theorem step_turn_id (s : TurnState) (e : TurnEvent)
    (he : e ≠ TurnEvent.speechStarted) :
    (step s e).1.turn_id = s.turn_id := by
  cases e with
  | speechStarted => exact absurd rfl he
  | speechStopped => rfl
  | sttDelta t =>
    simp only [step, on_stt_delta]
    split
    · rfl
    · split <;> rfl
  | sttFinalEvt t =>
    simp only [step, on_stt_final]
    split <;> rfl
  | finalTimeout =>
    simp only [step]
    split
    · simp only [handle_final_timeout]
      split <;> rfl
    · rfl

/-- Across any run with no `speechStarted` event, `turn_id` is unchanged. -/
theorem run_turn_id (s : TurnState) (evs : List TurnEvent) :
    TurnEvent.speechStarted ∉ evs → (runTurn s evs).1.turn_id = s.turn_id := by
  induction evs generalizing s with
  | nil => intro _; rfl
  | cons e rest ih =>
    intro h
    have h1 : e ≠ TurnEvent.speechStarted := by
      intro he
      exact h (by subst he; exact List.mem_cons_self _ _)
    have h2 : TurnEvent.speechStarted ∉ rest := fun hm => h (List.mem_cons_of_mem _ hm)
    simp only [runTurn]
    rw [ih _ h2, step_turn_id s e h1]

/-- The invariant "awaiting a final implies the final-timeout task is live"
is preserved by every coordinator step. -/
theorem step_awaiting_armed (s : TurnState) (e : TurnEvent)
    (h : s.awaiting_final = true → s.timeout_armed = true) :
    (step s e).1.awaiting_final = true → (step s e).1.timeout_armed = true := by
  cases e with
  | speechStarted => simp [step, on_speech_started]
  | speechStopped => simp [step, on_speech_stopped]
  | sttDelta t =>
    simp only [step, on_stt_delta]
    split
    · exact h
    · split
      · simpa using h
      · exact h
  | sttFinalEvt t =>
    simp only [step, on_stt_final]
    split <;> simp_all
  | finalTimeout =>
    simp only [step]
    split
    · simp only [handle_final_timeout]
      split <;> simp_all
    · exact h

/-- The awaiting-implies-armed invariant holds after any run that starts in a
state satisfying it. -/
theorem run_awaiting_armed (s : TurnState) (evs : List TurnEvent)
    (h : s.awaiting_final = true → s.timeout_armed = true) :
    (runTurn s evs).1.awaiting_final = true → (runTurn s evs).1.timeout_armed = true := by
  induction evs generalizing s with
  | nil => exact h
  | cons e rest ih =>
    simp only [runTurn]
    exact ih _ (step_awaiting_armed s e h)

/-- Claim C9: open a turn with `speech_started` (assigning id
`s0.turn_id + 1`), run any further events none of which is another
`speech_started`, and suppose `awaiting_final` is still set when the
final-timeout task fires.  Then the timeout handler emits exactly one
`stt.final` whose text is the stripped accumulated partial buffer — or
`"[inaudible]"` when that buffer strips to empty — whose `turn_id` is the id
opened at the matching `speech_started`, and it clears `awaiting_final`. -/
theorem final_timeout_spec (s0 : TurnState) (evs : List TurnEvent)
    (hno : TurnEvent.speechStarted ∉ evs)
    (hawait : (runTurn (step s0 TurnEvent.speechStarted).1 evs).1.awaiting_final = true) :
    (step (runTurn (step s0 TurnEvent.speechStarted).1 evs).1 TurnEvent.finalTimeout).2
      = [DcMessage.sttFinalMsg (s0.turn_id + 1)
          (if pyStrip (runTurn (step s0 TurnEvent.speechStarted).1 evs).1.turn_text_buffer = ""
           then "[inaudible]"
           else pyStrip (runTurn (step s0 TurnEvent.speechStarted).1 evs).1.turn_text_buffer)]
    ∧ (step (runTurn (step s0 TurnEvent.speechStarted).1 evs).1
        TurnEvent.finalTimeout).1.awaiting_final = false := by
  have harmed : (runTurn (step s0 TurnEvent.speechStarted).1 evs).1.timeout_armed = true := by
    refine run_awaiting_armed _ _ ?_ hawait
    intro hcontra
    simp [step, on_speech_started] at hcontra
  have hid : (runTurn (step s0 TurnEvent.speechStarted).1 evs).1.turn_id = s0.turn_id + 1 := by
    rw [run_turn_id _ _ hno]
    rfl
  simp only [step] at harmed hawait hid ⊢
  rw [if_pos harmed]
  simp [handle_final_timeout, hawait, hid]

/-- Witness for `final_timeout_spec`: the spec's scenario — `speech_started`,
deltas `"hello"` and `" world"`, `speech_stopped`, then timeout — emits
`stt.final` for turn 1 and clears `awaiting_final` (the accumulated buffer
here strips to `"helloworld"`, since each delta is stripped before being
appended). -/
theorem final_timeout_spec_witness :
    (step (runTurn (step initTurnState TurnEvent.speechStarted).1 timeoutScenario).1
        TurnEvent.finalTimeout).2
      = [DcMessage.sttFinalMsg (initTurnState.turn_id + 1)
          (if pyStrip (runTurn (step initTurnState TurnEvent.speechStarted).1
              timeoutScenario).1.turn_text_buffer = ""
           then "[inaudible]"
           else pyStrip (runTurn (step initTurnState TurnEvent.speechStarted).1
              timeoutScenario).1.turn_text_buffer)]
    ∧ (step (runTurn (step initTurnState TurnEvent.speechStarted).1 timeoutScenario).1
        TurnEvent.finalTimeout).1.awaiting_final = false :=
  final_timeout_spec initTurnState timeoutScenario (by decide) (by decide)

end WebRTCHandler

end Mori
